import Mathlib

/-!
Verification of the checkpoint JSON quality checker
(`checkpoint_quality_checker.py`).

The program validates a JSON array of question records.  We embed the data
model and the rule engine (`validate_checkpoint_json`) as total Lean
functions, and the URL predicate (`is_valid_url`, built on
`urllib.parse.urlparse`) as an `Except`-valued parser whose failure is
caught locally.  Error and warning messages are modelled as an inductive
type together with a `render` function producing the exact message strings
of the program.
-/

namespace CheckpointChecker

/-- The `answer` field of a record: absent (`None` / key missing), a single
string, or a list of strings.  Mirrors the dynamic shape handled by the
program via `isinstance(answer, list)`. -/
inductive Ans where
  | absent
  | str (s : String)
  | list (l : List String)
deriving DecidableEq, Repr

/-- Python truthiness test `not answer`: `None`, the empty string and the
empty list are falsy. -/
def Ans.falsy : Ans → Bool
  | .absent => true
  | .str s => s == ""
  | .list l => l.isEmpty

/-- Python equality `answer == s` against a string literal: a list or `None`
is never equal to a string. -/
def Ans.eqStr (a : Ans) (s : String) : Bool :=
  match a with
  | .str t => t == s
  | _ => false

/-- Python test `answer == "Unknown"`. -/
def Ans.isUnknown (a : Ans) : Bool :=
  a.eqStr "Unknown"

/-- The elements a list-or-scalar answer contributes to the
answer-in-choices check: a scalar contributes itself, a list its
elements, an absent answer nothing. -/
def Ans.elems : Ans → List String
  | .absent => []
  | .str s => [s]
  | .list l => l

/-- One question record: a mapping with optional keys.  `question`, `img`
are optional strings; `choices` defaults to `[]` via `get`; `answer` may be
absent, a string or a list; `qtype` models the `type` key, defaulting to
`"regular"` via `get`. -/
structure Question where
  question : Option String
  choices : Option (List String)
  answer : Ans
  qtype : Option String
  img : Option String
deriving DecidableEq, Repr

/-- The distinct error messages the validator can attach to a record. -/
inductive Err where
  | missingQuestion
  | questionTooShort (n : Nat) (text : String)
  | noAnswerKey
  | answerUnknown
  | answerNotInChoices (a : String)
  | invalidImageUrl (u : String)
deriving DecidableEq, Repr

/-- The distinct warning messages the validator can attach to a record. -/
inductive Warn where
  | specialHasChoices
  | specialWrongAnswer
deriving DecidableEq, Repr

/-- Exact message text produced by the program for each error. -/
def Err.render : Err → String
  | .missingQuestion => "Missing \x27question\x27 field"
  | .questionTooShort n text => s!"Question too short ({n} chars): \x27{text}\x27"
  | .noAnswerKey => "Has choices but no answer key"
  | .answerUnknown => "Answer is \x27Unknown\x27"
  | .answerNotInChoices a => s!"Answer \x27{a}\x27 not found in choices"
  | .invalidImageUrl u => s!"Invalid image URL: \x27{u}\x27"

/-- Exact message text produced by the program for each warning. -/
def Warn.render : Warn → String
  | .specialHasChoices => "Special question has choices (should be empty)"
  | .specialWrongAnswer => "Special question should have answer \x27See image for the answer\x27"

/-! ### URL parsing (`urllib.parse.urlparse`)

Modelled from the standard library: strip leading C0-control-or-space
characters, delete tab/CR/LF, split off a scheme (first char alphabetic,
all scheme chars, before the first colon, lowercased) and a network
location (after `//`, up to the first `/`, `?` or `#`).  Mismatched square
brackets in the netloc raise `ValueError("Invalid IPv6 URL")`, modelled as
`Except.error`. -/

/-- Characters allowed in a URL scheme. -/
def schemeChar (c : Char) : Bool :=
  c.isAlpha || c.isDigit || c == '+' || c == '-' || c == '.'

/-- C0 control characters and space, stripped from the front of a URL. -/
def c0ControlOrSpace (c : Char) : Bool :=
  c.toNat ≤ 0x20

/-- Scheme and network location of a parsed URL. -/
structure UrlParts where
  scheme : String
  netloc : String
deriving DecidableEq, Repr

/-- Parse a URL into scheme and netloc; errors model the `ValueError`
raised on mismatched IPv6 brackets. -/
def urlparse (url : String) : Except String UrlParts :=
  let cs := (url.data.dropWhile c0ControlOrSpace).filter
    (fun c => !(c == '\t' || c == '\r' || c == '\n'))
  let p :=
    match cs.findIdx? (fun c => c == ':') with
    | some i =>
      if 0 < i ∧ (cs.headD ' ').isAlpha ∧ (cs.take i).all schemeChar then
        (String.mk ((cs.take i).map Char.toLower), cs.drop (i + 1))
      else ("", cs)
    | none => ("", cs)
  if p.2.take 2 = ['/', '/'] then
    let netloc := (p.2.drop 2).takeWhile (fun c => !(c == '/' || c == '?' || c == '#'))
    if (netloc.contains '[' && !(netloc.contains ']')) ||
       (netloc.contains ']' && !(netloc.contains '[')) then
      Except.error "Invalid IPv6 URL"
    else
      Except.ok { scheme := p.1, netloc := String.mk netloc }
  else
    Except.ok { scheme := p.1, netloc := "" }

/-- `is_valid_url`: parse the URL and require both scheme and netloc
non-empty (`all([result.scheme, result.netloc])`); the bare `except`
converts any parse exception into `False`. -/
def is_valid_url (url : String) : Bool :=
  match urlparse url with
  | .ok r => r.scheme != "" && r.netloc != ""
  | .error _ => false

/-! ### Per-record rule evaluation (loop body of `validate_checkpoint_json`) -/

/-- Python `str.strip()`: remove leading and trailing whitespace. -/
def strip (s : String) : String :=
  String.mk (((s.data.dropWhile Char.isWhitespace).reverse.dropWhile
    Char.isWhitespace).reverse)

/-- Rule: required `question` field and minimum trimmed length
(`if 'question' not in question: ... else: question_text = ...strip();
if len(question_text) <= 5: ...`). -/
def questionErrs (q : Question) : List Err :=
  match q.question with
  | none => [Err.missingQuestion]
  | some t =>
    if (strip t).length ≤ 5 then [Err.questionTooShort (strip t).length (strip t)] else []

/-- Rule 5 body: each answer element missing from `choices` yields one
error naming it (`for ans in answer: if ans not in choices: ...` and the
scalar branch `if answer not in choices: ...`). -/
def ruleFive (choices : List String) (answer : Ans) : List Err :=
  match answer with
  | .list l => (l.filter (fun a => !(choices.contains a))).map Err.answerNotInChoices
  | .str s => if choices.contains s then [] else [Err.answerNotInChoices s]
  | .absent => []

/-- Rules 1 and 5: everything guarded by `if len(choices) > 0:` — the
answer-presence / Unknown check, then the answer-in-choices check guarded
by `if answer and answer != "Unknown" and question_type != 'special':`. -/
def answerErrs (choices : List String) (answer : Ans) (qtype : String) : List Err :=
  if choices.length > 0 then
    (if answer.falsy then [Err.noAnswerKey]
     else if answer.isUnknown then [Err.answerUnknown]
     else []) ++
    (if !answer.falsy && !answer.isUnknown && qtype != "special" then
      ruleFive choices answer
     else [])
  else []

/-- Rule 3: `if 'img' in question: ... if not is_valid_url(img_url): ...`. -/
def imgErrs (q : Question) : List Err :=
  match q.img with
  | none => []
  | some u => if is_valid_url u then [] else [Err.invalidImageUrl u]

/-- Special-type consistency warnings
(`if question_type == 'special': ...`). -/
def specialWarns (choices : List String) (answer : Ans) (qtype : String) : List Warn :=
  if qtype == "special" then
    (if choices.length > 0 then [Warn.specialHasChoices] else []) ++
    (if !(answer.eqStr "See image for the answer") then [Warn.specialWrongAnswer] else [])
  else []

/-- Evaluate all rules on one record, in program order, producing its
`question_errors` and `question_warnings`. -/
def checkQuestion (q : Question) : List Err × List Warn :=
  let choices := q.choices.getD []
  let qtype := q.qtype.getD "regular"
  (questionErrs q ++ answerErrs choices q.answer qtype ++ imgErrs q,
   specialWarns choices q.answer qtype)

/-! ### Top-level orchestration -/

/-- `f"Question {i}: {'; '.join(msgs)}"`. -/
def errLine (i : Nat) (msgs : List String) : String :=
  let joined := String.intercalate "; " msgs
  s!"Question {i}: {joined}"

/-- Aggregated report of one run: the flat `errors` and `warnings` lists
(one joined line per record with at least one message) and the returned
success boolean. -/
structure Report where
  errors : List String
  warnings : List String
  success : Bool
deriving DecidableEq, Repr

/-- The record loop: `for i, question in enumerate(questions, 1): ...`,
appending one joined line per record that has errors (resp. warnings). -/
def validateLoop (qs : List (Nat × Question)) (errors warnings : List String) :
    List String × List String :=
  match qs with
  | [] => (errors, warnings)
  | (i, q) :: rest =>
    let r := checkQuestion q
    let errors1 := if r.1.isEmpty then errors else errors ++ [errLine i (r.1.map Err.render)]
    let warnings1 := if r.2.isEmpty then warnings else warnings ++ [errLine i (r.2.map Warn.render)]
    validateLoop rest errors1 warnings1

/-- Validate a list of records: run the loop over the 1-based enumeration,
then compute the returned boolean
(`if not errors and not warnings: return True ... return len(errors) == 0`). -/
def validate (qs : List Question) : Report :=
  let p := validateLoop (List.enumFrom 1 qs) [] []
  { errors := p.1, warnings := p.2,
    success := if p.1.isEmpty && p.2.isEmpty then true else p.1.isEmpty }

/-- Top-level parsed value: either a list of records or any non-list JSON
value (`if not isinstance(questions, list)`). -/
inductive JsonValue where
  | arr (qs : List Question)
  | nonList
deriving Repr

/-- Outcome of a whole run: the per-record report, when one was produced,
and the overall success boolean (the return value of
`validate_checkpoint_json`). -/
structure RunResult where
  report : Option Report
  success : Bool
deriving Repr

/-- `validate_checkpoint_json` after the `open`/`json.load` step: a load
exception or a non-list top-level value returns `False` with no per-record
report; otherwise the record loop runs. -/
def runValidation (load : Except String JsonValue) : RunResult :=
  match load with
  | .error _ => { report := none, success := false }
  | .ok .nonList => { report := none, success := false }
  | .ok (.arr qs) =>
    let r := validate qs
    { report := some r, success := r.success }

/-! ### Verification apparatus: classifiers and concrete records -/

/-- Classifies the answer-related errors (those produced by the block
guarded by `len(choices) > 0`). -/
def isAnswerErr : Err → Bool
  | .noAnswerKey => true
  | .answerUnknown => true
  | .answerNotInChoices _ => true
  | _ => false

/-- The element named by an answer-in-choices error, if any. -/
def notInChoicesArg : Err → Option String
  | .answerNotInChoices a => some a
  | _ => none

/-- The joined error line a record contributes to the flat `errors` list,
if it has any errors. -/
def recordErrLine (p : Nat × Question) : Option String :=
  if (checkQuestion p.2).1.isEmpty then none
  else some (errLine p.1 ((checkQuestion p.2).1.map Err.render))

/-- The joined warning line a record contributes to the flat `warnings`
list, if it has any warnings. -/
def recordWarnLine (p : Nat × Question) : Option String :=
  if (checkQuestion p.2).2.isEmpty then none
  else some (errLine p.1 ((checkQuestion p.2).2.map Warn.render))

/-- Record with an empty choices list and a scalar answer not among the
choices. -/
def qEmptyChoices : Question :=
  { question := some "What color is it", choices := some [], answer := .str "Purple",
    qtype := none, img := none }

/-- Record with choices and a list answer with one element outside the
choices. -/
def qListAnswer : Question :=
  { question := some "What color is this", choices := some ["A", "B"],
    answer := .list ["A", "C"], qtype := none, img := none }

/-- Record with choices but an absent answer. -/
def qNoAnswer : Question :=
  { question := some "A valid question", choices := some ["A"], answer := .absent,
    qtype := none, img := none }

/-- Record whose trimmed question text is too short. -/
def qShort : Question :=
  { question := some "Hi", choices := none, answer := .absent,
    qtype := none, img := none }

/-- Record whose image URL makes the parser raise (mismatched IPv6
bracket). -/
def qBadImg : Question :=
  { question := some "A valid question", choices := none, answer := .absent,
    qtype := none, img := some "http://[" }

/-- Special record with choices and the fixed answer, but no question
field. -/
def qSpecialNoQuestion : Question :=
  { question := none, choices := some ["A"], answer := .str "See image for the answer",
    qtype := some "special", img := none }

/-- Well-formed special record with choices and the fixed answer. -/
def qSpecialOk : Question :=
  { question := some "A valid question", choices := some ["A"],
    answer := .str "See image for the answer", qtype := some "special", img := none }

/-- Special record whose answer is the one-element list containing
Unknown. -/
def qSpecialUnknownList : Question :=
  { question := some "A question here", choices := some ["A"],
    answer := .list ["Unknown"], qtype := some "special", img := none }

/-- Regular record whose answer is the one-element list containing
Unknown. -/
def qRegularUnknownList : Question :=
  { question := some "A question here", choices := some ["A"],
    answer := .list ["Unknown"], qtype := none, img := none }

/-! ### Helper lemmas -/

theorem checkQuestion_fst (q : Question) :
    (checkQuestion q).1 =
      questionErrs q ++ answerErrs (q.choices.getD []) q.answer (q.qtype.getD "regular") ++
        imgErrs q := rfl

theorem checkQuestion_snd (q : Question) :
    (checkQuestion q).2 =
      specialWarns (q.choices.getD []) q.answer (q.qtype.getD "regular") := rfl

theorem mem_questionErrs {q : Question} {e : Err} (h : e ∈ questionErrs q) :
    e = Err.missingQuestion ∨ ∃ n s, e = Err.questionTooShort n s := by
  unfold questionErrs at h
  split at h
  · simp at h
    exact Or.inl h
  · split at h
    · simp at h
      exact Or.inr ⟨_, _, h⟩
    · simp at h

theorem mem_ruleFive {c : List String} {a : Ans} {e : Err} (h : e ∈ ruleFive c a) :
    ∃ s, e = Err.answerNotInChoices s := by
  unfold ruleFive at h
  split at h
  · rcases List.mem_map.mp h with ⟨s, _, rfl⟩
    exact ⟨s, rfl⟩
  · split at h
    · simp at h
    · simp at h
      exact ⟨_, h⟩
  · simp at h

theorem mem_answerErrs {c : List String} {a : Ans} {t : String} {e : Err}
    (h : e ∈ answerErrs c a t) : isAnswerErr e = true := by
  unfold answerErrs at h
  split at h
  · rcases List.mem_append.mp h with h1 | h1
    · split at h1
      · simp at h1
        subst h1
        rfl
      · split at h1
        · simp at h1
          subst h1
          rfl
        · simp at h1
    · split at h1
      · rcases mem_ruleFive h1 with ⟨s, rfl⟩
        rfl
      · simp at h1
  · simp at h

theorem mem_imgErrs {q : Question} {e : Err} (h : e ∈ imgErrs q) :
    ∃ u, e = Err.invalidImageUrl u := by
  unfold imgErrs at h
  split at h
  · simp at h
  · split at h
    · simp at h
    · simp at h
      exact ⟨_, h⟩

theorem imgErrs_some {q : Question} {u : String} (h : q.img = some u) :
    imgErrs q = if is_valid_url u then [] else [Err.invalidImageUrl u] := by
  unfold imgErrs
  rw [h]

theorem answerErrs_of_choices_ne_nil (a : Ans) (t : String) {c : List String} (hc : c ≠ []) :
    answerErrs c a t =
      (if a.falsy then [Err.noAnswerKey]
       else if a.isUnknown then [Err.answerUnknown]
       else []) ++
      (if !a.falsy && !a.isUnknown && t != "special" then ruleFive c a else []) := by
  unfold answerErrs
  rw [if_pos (List.length_pos.mpr hc)]

theorem answerErrs_rule5 {c : List String} {a : Ans} {t : String} (hc : c ≠ [])
    (hf : a.falsy = false) (hu : a.isUnknown = false) (ht : t ≠ "special") :
    answerErrs c a t = ruleFive c a := by
  rw [answerErrs_of_choices_ne_nil a t hc, hf, hu]
  have hbne : (t != "special") = true := by
    simp [bne_iff_ne]
    exact ht
  rw [hbne]
  simp

theorem filterMap_notInChoicesArg_map (xs : List String) :
    (xs.map Err.answerNotInChoices).filterMap notInChoicesArg = xs := by
  induction xs with
  | nil => rfl
  | cons x xs ih => simp [List.filterMap_cons, notInChoicesArg, ih]

theorem ruleFive_filterMap (c : List String) (a : Ans) :
    (ruleFive c a).filterMap notInChoicesArg =
      a.elems.filter (fun x => !(c.contains x)) := by
  cases a with
  | absent => rfl
  | str s =>
    by_cases h : s ∈ c <;>
      simp [ruleFive, Ans.elems, h, List.filterMap_cons, notInChoicesArg]
  | list l =>
    show ((l.filter fun a => !(c.contains a)).map Err.answerNotInChoices).filterMap
        notInChoicesArg = _
    rw [filterMap_notInChoicesArg_map]
    rfl

theorem validateLoop_eq (qs : List (Nat × Question)) (es ws : List String) :
    validateLoop qs es ws =
      (es ++ qs.filterMap recordErrLine, ws ++ qs.filterMap recordWarnLine) := by
  induction qs generalizing es ws with
  | nil => simp [validateLoop]
  | cons p rest ih =>
    obtain ⟨i, q⟩ := p
    simp only [validateLoop, List.filterMap_cons]
    rw [ih]
    unfold recordErrLine recordWarnLine
    by_cases h1 : (checkQuestion q).1.isEmpty <;>
      by_cases h2 : (checkQuestion q).2.isEmpty <;>
        simp [h1, h2]

theorem validate_errors (qs : List Question) :
    (validate qs).errors = (List.enumFrom 1 qs).filterMap recordErrLine := by
  show (validateLoop (List.enumFrom 1 qs) [] []).1 = _
  rw [validateLoop_eq]
  simp

theorem validate_warnings (qs : List Question) :
    (validate qs).warnings = (List.enumFrom 1 qs).filterMap recordWarnLine := by
  show (validateLoop (List.enumFrom 1 qs) [] []).2 = _
  rw [validateLoop_eq]
  simp

theorem validate_success_eq (qs : List Question) :
    (validate qs).success = (validate qs).errors.isEmpty := by
  unfold validate
  cases h1 : (validateLoop (List.enumFrom 1 qs) [] []).1.isEmpty <;>
    cases h2 : (validateLoop (List.enumFrom 1 qs) [] []).2.isEmpty <;>
      simp [h1, h2]

theorem filterMap_recordErrLine_eq_nil (n : Nat) (qs : List Question) :
    ((List.enumFrom n qs).filterMap recordErrLine = []) ↔
      ∀ q ∈ qs, (checkQuestion q).1 = [] := by
  induction qs generalizing n with
  | nil => simp
  | cons q rest ih =>
    rw [List.enumFrom_cons, List.filterMap_cons]
    cases hr : recordErrLine (n, q) with
    | none =>
      have hq : (checkQuestion q).1 = [] := by
        unfold recordErrLine at hr
        split at hr
        · exact List.isEmpty_iff.mp (by assumption)
        · exact absurd hr (by simp)
      simp [ih, hq, List.forall_mem_cons]
    | some s =>
      have hq : (checkQuestion q).1 ≠ [] := by
        unfold recordErrLine at hr
        split at hr
        · exact absurd hr (by simp)
        · intro hh
          rename_i hne
          exact hne (List.isEmpty_iff.mpr hh)
      constructor
      · intro hcontra
        simp at hcontra
      · intro hall
        exact absurd (hall q (List.mem_cons_self q rest)) hq

/-! ### Claim theorems -/

/-- C1 counterexample: a regular record with an empty choices sequence and a
present, non-falsy scalar answer that is not among the (empty) choices
produces no error at all — the answer-in-choices rule is not evaluated when
the choices sequence is empty, contrary to the claim. -/
theorem c1_counterexample :
    qEmptyChoices.answer = Ans.str "Purple" ∧
    qEmptyChoices.answer.falsy = false ∧
    qEmptyChoices.answer.isUnknown = false ∧
    qEmptyChoices.qtype.getD "regular" ≠ "special" ∧
    qEmptyChoices.choices.getD [] = [] ∧
    (checkQuestion qEmptyChoices).1 = [] := by
  decide

/-- C1 (amended): for every record with non-empty choices whose answer is
present, non-falsy, not Unknown, and whose type is not special, the
answer-in-choices rule is evaluated: the errors naming a missing element
are exactly one per answer element (scalar or list element) absent from
the choices, in order. -/
theorem c1_answer_in_choices (q : Question)
    (hc : q.choices.getD [] ≠ [])
    (hf : q.answer.falsy = false)
    (hu : q.answer.isUnknown = false)
    (ht : q.qtype.getD "regular" ≠ "special") :
    (checkQuestion q).1.filterMap notInChoicesArg =
      q.answer.elems.filter (fun a => !((q.choices.getD []).contains a)) := by
  have hquestion : (questionErrs q).filterMap notInChoicesArg = [] := by
    rw [List.filterMap_eq_nil_iff]
    intro e he
    rcases mem_questionErrs he with rfl | ⟨n, s, rfl⟩ <;> rfl
  have himg : (imgErrs q).filterMap notInChoicesArg = [] := by
    rw [List.filterMap_eq_nil_iff]
    intro e he
    rcases mem_imgErrs he with ⟨u, rfl⟩
    rfl
  rw [checkQuestion_fst, List.filterMap_append, List.filterMap_append, hquestion, himg,
    answerErrs_rule5 hc hf hu ht, ruleFive_filterMap]
  simp

/-- C1 witness: a record with choices `["A", "B"]` and list answer
`["A", "C"]` satisfies the hypotheses, and its missing-element errors name
exactly `"C"`. -/
theorem c1_witness :
    qListAnswer.choices.getD [] ≠ [] ∧
    (checkQuestion qListAnswer).1.filterMap notInChoicesArg =
      qListAnswer.answer.elems.filter
        (fun a => !((qListAnswer.choices.getD []).contains a)) :=
  ⟨by decide,
   c1_answer_in_choices qListAnswer (by decide) (by decide) (by decide) (by decide)⟩

/-- C2: rule evaluation is total and record-wise — the flat errors and
warnings of a run are exactly the per-record lines computed from every
enumerated record, so every record in the list is fully evaluated no
matter what earlier records contain, and an array input always yields a
report; only a failed load yields no report. -/
theorem c2_every_record_evaluated (qs : List Question) :
    (validate qs).errors = (List.enumFrom 1 qs).filterMap recordErrLine ∧
    (validate qs).warnings = (List.enumFrom 1 qs).filterMap recordWarnLine ∧
    (runValidation (Except.ok (JsonValue.arr qs))).report = some (validate qs) :=
  ⟨validate_errors qs, validate_warnings qs, rfl⟩

/-- C3: the overall result is success exactly when the total number of
per-record errors is zero; warnings never affect it. -/
theorem c3_success_iff_no_errors (qs : List Question) :
    (validate qs).success = true ↔
      (qs.map (fun q => (checkQuestion q).1.length)).sum = 0 := by
  rw [validate_success_eq, validate_errors, List.isEmpty_iff,
    filterMap_recordErrLine_eq_nil, List.sum_eq_zero_iff]
  constructor
  · intro h x hx
    rcases List.mem_map.mp hx with ⟨q, hq, rfl⟩
    rw [h q hq]
    rfl
  · intro h q hq
    exact List.length_eq_zero.mp (h _ (List.mem_map.mpr ⟨q, hq, rfl⟩))

/-- C4: a deserialization failure or a non-array top-level value yields no
per-record report and an overall failure. -/
theorem c4_load_error (load : Except String JsonValue)
    (h : (∃ e, load = Except.error e) ∨ load = Except.ok JsonValue.nonList) :
    (runValidation load).report = none ∧ (runValidation load).success = false := by
  rcases h with ⟨e, he⟩ | he <;> subst he <;> exact ⟨rfl, rfl⟩

/-- C4 witness: a top-level non-array value. -/
theorem c4_witness :
    ((∃ e, (Except.ok JsonValue.nonList : Except String JsonValue) = Except.error e) ∨
      (Except.ok JsonValue.nonList : Except String JsonValue) =
        Except.ok JsonValue.nonList) ∧
    (runValidation (Except.ok JsonValue.nonList)).report = none ∧
    (runValidation (Except.ok JsonValue.nonList)).success = false :=
  ⟨Or.inr rfl, c4_load_error _ (Or.inr rfl)⟩

/-- C5: with non-empty choices, a falsy answer yields exactly the
no-answer-key error among the answer-related errors (the in-choices check
is skipped), and an answer equal to Unknown yields exactly the
answer-is-Unknown error among them. -/
theorem c5_choices_answer (q : Question) (hc : q.choices.getD [] ≠ []) :
    (q.answer.falsy = true →
      (checkQuestion q).1.filter isAnswerErr = [Err.noAnswerKey]) ∧
    (q.answer.isUnknown = true →
      (checkQuestion q).1.filter isAnswerErr = [Err.answerUnknown]) := by
  have hquestion : (questionErrs q).filter isAnswerErr = [] := by
    rw [List.filter_eq_nil_iff]
    intro e he
    rcases mem_questionErrs he with rfl | ⟨n, s, rfl⟩ <;> simp [isAnswerErr]
  have himg : (imgErrs q).filter isAnswerErr = [] := by
    rw [List.filter_eq_nil_iff]
    intro e he
    rcases mem_imgErrs he with ⟨u, rfl⟩
    simp [isAnswerErr]
  constructor
  · intro hf
    rw [checkQuestion_fst, List.filter_append, List.filter_append, hquestion, himg,
      answerErrs_of_choices_ne_nil _ _ hc, hf]
    simp [isAnswerErr]
  · intro hu
    have hf : q.answer.falsy = false := by
      cases ha : q.answer with
      | absent => rw [ha] at hu; simp [Ans.isUnknown, Ans.eqStr] at hu
      | list l => rw [ha] at hu; simp [Ans.isUnknown, Ans.eqStr] at hu
      | str s =>
        rw [ha] at hu
        simp [Ans.isUnknown, Ans.eqStr] at hu
        subst hu
        rfl
    rw [checkQuestion_fst, List.filter_append, List.filter_append, hquestion, himg,
      answerErrs_of_choices_ne_nil _ _ hc, hf, hu]
    simp [isAnswerErr]

/-- C5 witness: a record with choices and an absent answer gets exactly
the no-answer-key error among answer-related errors. -/
theorem c5_witness :
    qNoAnswer.choices.getD [] ≠ [] ∧
    (checkQuestion qNoAnswer).1.filter isAnswerErr = [Err.noAnswerKey] :=
  ⟨by decide, (c5_choices_answer qNoAnswer (by decide)).1 (by decide)⟩

/-- C6: a record without a question key gets the missing-question error; a
present question whose trimmed length is at most five gets a too-short
error reporting that length and text; trimmed length six or more produces
no too-short error. -/
theorem c6_question_rule (q : Question) :
    (q.question = none → Err.missingQuestion ∈ (checkQuestion q).1) ∧
    (∀ t, q.question = some t → (strip t).length ≤ 5 →
      Err.questionTooShort (strip t).length (strip t) ∈ (checkQuestion q).1) ∧
    (∀ t, q.question = some t → 6 ≤ (strip t).length →
      ∀ n s, Err.questionTooShort n s ∉ (checkQuestion q).1) := by
  refine ⟨?_, ?_, ?_⟩
  · intro h
    rw [checkQuestion_fst]
    apply List.mem_append.mpr
    left
    apply List.mem_append.mpr
    left
    simp [questionErrs, h]
  · intro t h hlen
    rw [checkQuestion_fst]
    apply List.mem_append.mpr
    left
    apply List.mem_append.mpr
    left
    simp [questionErrs, h, hlen]
  · intro t h hlen n s hmem
    rw [checkQuestion_fst] at hmem
    rcases List.mem_append.mp hmem with h1 | h1
    · rcases List.mem_append.mp h1 with h2 | h2
      · simp only [questionErrs, h] at h2
        rw [if_neg (by omega)] at h2
        simp at h2
      · have := mem_answerErrs h2
        simp [isAnswerErr] at this
    · rcases mem_imgErrs h1 with ⟨u, hu⟩
      exact absurd hu (by simp)

/-- C6 witness: the record with question text `"Hi"` (trimmed length two)
gets the too-short error reporting that length and text. -/
theorem c6_witness :
    (strip "Hi").length ≤ 5 ∧
    Err.questionTooShort (strip "Hi").length (strip "Hi") ∈ (checkQuestion qShort).1 :=
  ⟨by decide, (c6_question_rule qShort).2.1 "Hi" rfl (by decide)⟩

/-- C7: for a record with an img key, the invalid-URL error naming the
value is produced exactly when the value does not parse into a URL with
non-empty scheme and netloc; a parse exception makes the predicate false
(and hence produces that same error) instead of propagating. -/
theorem c7_img_rule (q : Question) (u : String) (h : q.img = some u) :
    (Err.invalidImageUrl u ∈ (checkQuestion q).1 ↔ is_valid_url u = false) ∧
    (∀ e, urlparse u = Except.error e → is_valid_url u = false) := by
  constructor
  · constructor
    · intro hm
      rw [checkQuestion_fst] at hm
      rcases List.mem_append.mp hm with h1 | h1
      · rcases List.mem_append.mp h1 with h2 | h2
        · rcases mem_questionErrs h2 with h3 | ⟨n, s, h3⟩ <;> exact absurd h3 (by simp)
        · have := mem_answerErrs h2
          simp [isAnswerErr] at this
      · rw [imgErrs_some h] at h1
        split at h1
        · simp at h1
        · rename_i hv
          exact Bool.eq_false_iff.mpr hv
    · intro hv
      rw [checkQuestion_fst]
      apply List.mem_append.mpr
      right
      simp [imgErrs, h, hv]
  · intro e he
    unfold is_valid_url
    rw [he]

/-- C7 witness: the record whose img is `"http://["` (a URL whose parse
raises) gets the invalid-URL error. -/
theorem c7_witness :
    qBadImg.img = some "http://[" ∧
    (Err.invalidImageUrl "http://[" ∈ (checkQuestion qBadImg).1 ↔
      is_valid_url "http://[" = false) :=
  ⟨rfl, (c7_img_rule qBadImg "http://[" rfl).1⟩

/-- C8 counterexample: a record with special type, non-empty choices and
the fixed answer, but no question field, produces an error — so such
records do not always have zero errors as claimed. -/
theorem c8_counterexample :
    qSpecialNoQuestion.qtype.getD "regular" = "special" ∧
    qSpecialNoQuestion.choices.getD [] ≠ [] ∧
    qSpecialNoQuestion.answer = Ans.str "See image for the answer" ∧
    (checkQuestion qSpecialNoQuestion).2 = [Warn.specialHasChoices] ∧
    (checkQuestion qSpecialNoQuestion).1 ≠ [] := by
  decide

/-- C8 (amended): a special record gets the choices warning exactly when
its choices are non-empty, and the fixed-answer warning exactly when its
answer differs from the fixed text; when additionally its choices are
non-empty, its answer is the fixed text, its question is present with
trimmed length at least six, and its img is absent or valid, it produces
exactly the one choices warning and zero errors. -/
theorem c8_special_rule :
    (∀ q : Question, q.qtype.getD "regular" = "special" →
      ((Warn.specialHasChoices ∈ (checkQuestion q).2 ↔ q.choices.getD [] ≠ []) ∧
       (Warn.specialWrongAnswer ∈ (checkQuestion q).2 ↔
         q.answer.eqStr "See image for the answer" = false))) ∧
    (∀ q : Question, q.qtype.getD "regular" = "special" →
      q.choices.getD [] ≠ [] →
      q.answer = Ans.str "See image for the answer" →
      (∃ t, q.question = some t ∧ 6 ≤ (strip t).length) →
      (q.img = none ∨ ∃ u, q.img = some u ∧ is_valid_url u = true) →
      (checkQuestion q).2 = [Warn.specialHasChoices] ∧ (checkQuestion q).1 = []) := by
  constructor
  · intro q hsp
    rw [checkQuestion_snd]
    by_cases hc : q.choices.getD [] = []
    · by_cases he : q.answer.eqStr "See image for the answer" = true <;>
        simp [specialWarns, hsp, hc, he]
    · have hl : 0 < (q.choices.getD []).length := List.length_pos.mpr hc
      by_cases he : q.answer.eqStr "See image for the answer" = true <;>
        simp [specialWarns, hsp, hc, he, hl]
  · intro q hsp hc ha hq hi
    obtain ⟨t, hqt, hlen⟩ := hq
    have hl : 0 < (q.choices.getD []).length := List.length_pos.mpr hc
    constructor
    · rw [checkQuestion_snd]
      simp [specialWarns, hsp, hl, ha, Ans.eqStr]
    · rw [checkQuestion_fst]
      have h1 : questionErrs q = [] := by
        simp only [questionErrs, hqt]
        rw [if_neg (by omega)]
      have h2 : answerErrs (q.choices.getD []) q.answer (q.qtype.getD "regular") = [] := by
        rw [answerErrs_of_choices_ne_nil _ _ hc, ha, hsp]
        have hfa : (Ans.str "See image for the answer").falsy = false := by decide
        have hun : (Ans.str "See image for the answer").isUnknown = false := by decide
        rw [hfa, hun]
        simp
      have h3 : imgErrs q = [] := by
        rcases hi with hnone | ⟨u, hu, hv⟩
        · simp [imgErrs, hnone]
        · simp [imgErrs, hu, hv]
      rw [h1, h2, h3]
      rfl

/-- C8 witness: a well-formed special record with choices and the fixed
answer has exactly one warning and zero errors. -/
theorem c8_witness :
    qSpecialOk.qtype.getD "regular" = "special" ∧
    (checkQuestion qSpecialOk).2 = [Warn.specialHasChoices] ∧
    (checkQuestion qSpecialOk).1 = [] :=
  ⟨rfl, c8_special_rule.2 qSpecialOk rfl (by decide) rfl
    ⟨"A valid question", rfl, by decide⟩ (Or.inl rfl)⟩

/-- C9: report generation is a pure function of the input list: the
embedding never mutates records, and two runs on equal inputs produce
equal reports. -/
theorem c9_pure_function (qs qs' : List Question) (h : qs = qs') :
    validate qs = validate qs' := by
  rw [h]

/-- C9 witness: two runs on the same one-record list coincide. -/
theorem c9_witness :
    ([qShort] : List Question) = [qShort] ∧ validate [qShort] = validate [qShort] :=
  ⟨rfl, c9_pure_function [qShort] [qShort] rfl⟩

/-- C10 counterexample: a special-type record with non-empty choices and
answer `["Unknown"]` where Unknown is not among the choices produces no
answer-in-choices error, so the claimed equivalence fails without a
type restriction. -/
theorem c10_counterexample :
    qSpecialUnknownList.choices.getD [] ≠ [] ∧
    qSpecialUnknownList.answer = Ans.list ["Unknown"] ∧
    (qSpecialUnknownList.choices.getD []).contains "Unknown" = false ∧
    Err.answerUnknown ∉ (checkQuestion qSpecialUnknownList).1 ∧
    Err.answerNotInChoices "Unknown" ∉ (checkQuestion qSpecialUnknownList).1 := by
  decide

/-- C10 (amended): for a non-special record with non-empty choices whose
answer is the one-element list containing Unknown, the Unknown sentinel
does not fire (no answer-is-Unknown error) and the in-choices check runs
on the element: the error naming Unknown is produced exactly when Unknown
is not among the choices. -/
theorem c10_unknown_list (q : Question)
    (hc : q.choices.getD [] ≠ [])
    (ha : q.answer = Ans.list ["Unknown"])
    (ht : q.qtype.getD "regular" ≠ "special") :
    Err.answerUnknown ∉ (checkQuestion q).1 ∧
    (Err.answerNotInChoices "Unknown" ∈ (checkQuestion q).1 ↔
      (q.choices.getD []).contains "Unknown" = false) := by
  have hf : q.answer.falsy = false := by rw [ha]; rfl
  have hu : q.answer.isUnknown = false := by rw [ha]; rfl
  have hrule : answerErrs (q.choices.getD []) q.answer (q.qtype.getD "regular") =
      ruleFive (q.choices.getD []) q.answer := answerErrs_rule5 hc hf hu ht
  constructor
  · intro hm
    rw [checkQuestion_fst] at hm
    rcases List.mem_append.mp hm with h1 | h1
    · rcases List.mem_append.mp h1 with h2 | h2
      · rcases mem_questionErrs h2 with h3 | ⟨n, s, h3⟩ <;> exact absurd h3 (by simp)
      · rw [hrule] at h2
        rcases mem_ruleFive h2 with ⟨s, h3⟩
        exact absurd h3 (by simp)
    · rcases mem_imgErrs h1 with ⟨u, h3⟩
      exact absurd h3 (by simp)
  · rw [checkQuestion_fst]
    constructor
    · intro hm
      rcases List.mem_append.mp hm with h1 | h1
      · rcases List.mem_append.mp h1 with h2 | h2
        · rcases mem_questionErrs h2 with h3 | ⟨n, s, h3⟩ <;> exact absurd h3 (by simp)
        · rw [hrule, ha] at h2
          by_cases hcmem : (q.choices.getD []).contains "Unknown" = true
          · have hmem : "Unknown" ∈ q.choices.getD [] := by simpa using hcmem
            simp [ruleFive, hmem] at h2
          · exact Bool.eq_false_iff.mpr hcmem
      · rcases mem_imgErrs h1 with ⟨u, h3⟩
        exact absurd h3 (by simp)
    · intro hcmem
      apply List.mem_append.mpr
      left
      apply List.mem_append.mpr
      right
      rw [hrule, ha]
      have hmem : "Unknown" ∉ q.choices.getD [] := by simpa using hcmem
      simp [ruleFive, hmem]

/-- C10 witness: a regular record with choices `["A"]` and answer
`["Unknown"]` gets the in-choices error naming Unknown. -/
theorem c10_witness :
    qRegularUnknownList.answer = Ans.list ["Unknown"] ∧
    Err.answerUnknown ∉ (checkQuestion qRegularUnknownList).1 ∧
    (Err.answerNotInChoices "Unknown" ∈ (checkQuestion qRegularUnknownList).1 ↔
      (qRegularUnknownList.choices.getD []).contains "Unknown" = false) :=
  ⟨rfl, c10_unknown_list qRegularUnknownList (by decide) rfl (by decide)⟩

end CheckpointChecker
